import Mathlib

/-
Verification of the payload packing core of esp32/scripts/pack_payload.py.

Bytes are modelled as natural numbers below 256 in lists.  The external
zlib.compress function is a parameter of the compression model; the facts
the script relies on about zlib (the two-byte header and four-byte
trailer stripped by the slice, the inverse raw inflate, and raw deflate
output being nonempty) enter theorems as explicit hypotheses.
-/

/-- Little-endian serialization of a natural number into four bytes, as
performed by struct.pack with the format letter I (unsigned 32-bit). -/
def le32 (n : Nat) : List Nat :=
  [n % 256, n / 256 % 256, n / 65536 % 256, n / 16777216 % 256]

/-- Encoding of a single character as UTF-8 bytes, as produced by the
Python encode method for one codepoint. -/
def utf8Bytes (c : Char) : List Nat :=
  let n := c.toNat
  if n < 128 then [n]
  else if n < 2048 then [192 + n / 64, 128 + n % 64]
  else if n < 65536 then [224 + n / 4096, 128 + n / 64 % 64, 128 + n % 64]
  else [240 + n / 262144, 128 + n / 4096 % 64, 128 + n / 64 % 64, 128 + n % 64]

/-- Encoding of a whole string as UTF-8 bytes. -/
def utf8Encode (s : String) : List Nat :=
  (s.data.map utf8Bytes).flatten

/-- Translation of the Python slice x[2:-4] on a byte string, used at
line 72 of pack_payload.py to strip the zlib header and trailer from the
output of zlib.compress, leaving the raw deflate body. -/
def pySlice2m4 (x : List Nat) : List Nat :=
  (x.drop 2).take (x.length - 6)

/-- Files smaller than this are stored uncompressed (line 44). -/
def COMPRESS_THRESHOLD : Nat := 4096

/-- Model of compress_file (lines 65 to 78).  The external zlib.compress
call at level 9 is the parameter zlibCompress; the source strips its
framing with the slice x[2:-4] and keeps the result only if it is
strictly smaller than the input.  Returns the stored bytes and the
compressed size field, where 0 means stored uncompressed. -/
def compress_file (zlibCompress : List Nat → List Nat) (data : List Nat) :
    List Nat × Nat :=
  if data.length < COMPRESS_THRESHOLD then (data, 0)
  else if data.length ≤ (pySlice2m4 (zlibCompress data)).length then (data, 0)
  else (pySlice2m4 (zlibCompress data), (pySlice2m4 (zlibCompress data)).length)

/-- Model of the 128-byte null-padded path field of a manifest entry,
from lines 96 to 97: the UTF-8 encoding cut at 127 bytes, one zero byte,
then zero padding up to 128 bytes. -/
def pathField (rel_path : String) : List Nat :=
  let path_bytes := (utf8Encode rel_path).take 127 ++ [0]
  path_bytes ++ List.replicate (128 - path_bytes.length) 0

/-- Model of one 136-byte manifest entry, struct.pack at line 98. -/
def manifestEntry (rel_path : String) (comp_size orig_size : Nat) : List Nat :=
  pathField rel_path ++ le32 comp_size ++ le32 orig_size

/-- Model of the 16-byte null-padded architecture name field, from lines
145 to 146: the UTF-8 encoding cut at 15 bytes, one zero byte, then zero
padding up to 16 bytes. -/
def nameField (arch_name : String) : List Nat :=
  let name_bytes := (utf8Encode arch_name).take 15 ++ [0]
  name_bytes ++ List.replicate (16 - name_bytes.length) 0

/-- Model of one 24-byte architecture table entry, struct.pack at line
147. -/
def archEntry (arch_name : String) (offset file_count : Nat) : List Nat :=
  nameField arch_name ++ le32 offset ++ le32 file_count

/-- Model of pack_arch (lines 81 to 105).  The file system walk in
collect_files is external input, so the function takes the collected
list of pairs of relative path and data directly.  Returns the manifest
bytes, the data bytes and the file count. -/
def pack_arch (zlibCompress : List Nat → List Nat)
    (files : List (String × List Nat)) : List Nat × List Nat × Nat :=
  if files.isEmpty then ([], [], 0)
  else
    let md := files.foldl
      (fun acc f =>
        let c := compress_file zlibCompress f.2
        (acc.1 ++ manifestEntry f.1 c.2 f.2.length, acc.2 ++ c.1))
      ([], [])
    (md.1, md.2, files.length)

/-- Model of the per-architecture loop of main (lines 139 to 150): walk
the architectures carrying the running data_offset, producing the
architecture table bytes and the list of blobs. -/
def packLoop (zlibCompress : List Nat → List Nat) :
    List (String × List (String × List Nat)) → Nat → List Nat × List (List Nat)
  | [], _ => ([], [])
  | a :: rest, data_offset =>
    let r := pack_arch zlibCompress a.2
    let blob := r.1 ++ r.2.1
    let rest_result := packLoop zlibCompress rest (data_offset + blob.length)
    (archEntry a.1 data_offset r.2.2 ++ rest_result.1, blob :: rest_result.2)

/-- Partition capacity checked at line 165: 0x290000 bytes. -/
def max_size : Nat := 2686976

/-- Model of the payload assembled by main, lines 129 to 155: the 8-byte
header with magic SURV, version 1, the architecture count and two
reserved zero bytes, then the architecture table, then the blobs in
input order. -/
def assemble (zlibCompress : List Nat → List Nat)
    (arches : List (String × List (String × List Nat))) : List Nat :=
  let header := [83, 85, 82, 86, 1, arches.length % 256, 0, 0]
  let data_offset := header.length + 24 * arches.length
  let r := packLoop zlibCompress arches data_offset
  header ++ r.1 ++ r.2.flatten

/-- Model of main (lines 108 to 174), with the directory scan abstracted
to the already filtered list of pairs of architecture name and collected
files.  Returns the exit code and the bytes written to the output file,
none when nothing was written.  Line 127 returns 1 before any write when
no architectures exist; line 159 writes the payload; lines 166 to 169
return 1 when the payload exceeds max_size, else 0. -/
def mainRun (zlibCompress : List Nat → List Nat)
    (arches : List (String × List (String × List Nat))) :
    Nat × Option (List Nat) :=
  if arches.isEmpty then (1, none)
  else
    let payload := assemble zlibCompress arches
    if max_size < payload.length then (1, some payload)
    else (0, some payload)

/-- Manifest entry that pack_arch appends for one collected file. -/
def entryOf (zlibCompress : List Nat → List Nat) (f : String × List Nat) :
    List Nat :=
  manifestEntry f.1 (compress_file zlibCompress f.2).2 f.2.length

/-- Bytes that pack_arch appends to the data section for one file. -/
def storedOf (zlibCompress : List Nat → List Nat) (f : String × List Nat) :
    List Nat :=
  (compress_file zlibCompress f.2).1

/-- Size a decoder attributes to one file from its manifest entry: the
compressed size field when nonzero, else the original size. -/
def declaredSize (zlibCompress : List Nat → List Nat) (f : String × List Nat) :
    Nat :=
  if (compress_file zlibCompress f.2).2 = 0 then f.2.length
  else (compress_file zlibCompress f.2).2

/-- Blob, manifest then data, that main appends for one architecture. -/
def blobOf (zlibCompress : List Nat → List Nat)
    (a : String × List (String × List Nat)) : List Nat :=
  (pack_arch zlibCompress a.2).1 ++ (pack_arch zlibCompress a.2).2.1

/-- File count that main writes into the table entry of one
architecture. -/
def fileCountOf (zlibCompress : List Nat → List Nat)
    (a : String × List (String × List Nat)) : Nat :=
  (pack_arch zlibCompress a.2).2.2

/-- Check that a byte is a UTF-8 continuation byte. -/
def isCont (b : Nat) : Bool := 128 ≤ b && b < 192

/-- Structural validity of a UTF-8 byte sequence: every lead byte is
followed by the right number of continuation bytes.  The check is
lenient, overlong forms are not rejected, which only strengthens an
invalidity result. -/
def isValidUTF8 : List Nat → Bool
  | [] => true
  | b :: rest =>
    if b < 128 then isValidUTF8 rest
    else if b < 192 then false
    else if b < 224 then
      match rest with
      | c1 :: r => isCont c1 && isValidUTF8 r
      | [] => false
    else if b < 240 then
      match rest with
      | c1 :: c2 :: r => isCont c1 && isCont c2 && isValidUTF8 r
      | _ => false
    else if b < 248 then
      match rest with
      | c1 :: c2 :: c3 :: r => isCont c1 && isCont c2 && isCont c3 && isValidUTF8 r
      | _ => false
    else false

/-- Stand-in for zlib.compress whose raw deflate body turns out one byte
longer than the input, so compression is never accepted: models an
incompressible file. -/
def zcPad (d : List Nat) : List Nat := d ++ List.replicate 7 0

/-- Identity stand-in for zlib.compress, for witnesses whose files stay
below the compression threshold. -/
def zcId (d : List Nat) : List Nat := d

/-- Stand-in for zlib.compress returning a constant 106-byte string, so
a 4096-byte input compresses to a 100-byte raw body. -/
def zcSmall : List Nat → List Nat := fun _ => List.replicate 106 7

/-- Matching raw inflate stand-in for zcSmall applied to file4096. -/
def inflateSmall : List Nat → List Nat := fun _ => List.replicate 4096 0

/-- File of 4096 bytes, exactly at the compression threshold. -/
def file4096 : List Nat := List.replicate 4096 0

/-- Incompressible file of 2686976 bytes: with zcPad it is stored raw
and the payload exceeds the partition capacity. -/
def bigFile : List Nat := List.replicate 2686976 0

/-- One architecture holding the oversized file. -/
def bigArches : List (String × List (String × List Nat)) :=
  [("a", [("f", bigFile)])]

/-- Two small architectures for table offset witnesses. -/
def archesW : List (String × List (String × List Nat)) :=
  [("aarch64", [("f", [1, 2, 3])]), ("x86_64", [])]

/-- Two small files for the manifest alignment witness. -/
def filesW : List (String × List Nat) := [("a", [1, 2, 3]), ("b", [5])]

/-- Relative path of 126 ASCII characters followed by one two-byte
codepoint: its UTF-8 encoding is 128 bytes long, and a cut at byte 127
splits the last codepoint. -/
def c3path : String := ⟨List.replicate 126 'a' ++ ['é']⟩

/-- Length of the serialized u32 field. -/
theorem length_le32 (n : Nat) : (le32 n).length = 4 := rfl

/-- Length of the path field is always exactly 128 bytes. -/
theorem length_pathField (s : String) : (pathField s).length = 128 := by
  simp only [pathField, List.length_append, List.length_take, List.length_replicate,
    List.length_singleton]
  omega

/-- Length of the architecture name field is always exactly 16 bytes. -/
theorem length_nameField (s : String) : (nameField s).length = 16 := by
  simp only [nameField, List.length_append, List.length_take, List.length_replicate,
    List.length_singleton]
  omega

/-- Length of one manifest entry is always 136 bytes. -/
theorem length_manifestEntry (s : String) (a b : Nat) :
    (manifestEntry s a b).length = 136 := by
  simp [manifestEntry, length_pathField, le32]

/-- Length of one architecture table entry is always 24 bytes. -/
theorem length_archEntry (s : String) (a b : Nat) :
    (archEntry s a b).length = 24 := by
  simp [archEntry, length_nameField, le32]

/-- C7: when the filtered architecture list is empty, main returns the
fatal NoArchitecturesFound code 1 before writing anything, so nothing at
all is produced. -/
theorem c7_no_arches_nothing_written (zlibCompress : List Nat → List Nat) :
    mainRun zlibCompress [] = (1, none) := rfl

/-- Last element of a null-terminated padded field is the terminator. -/
theorem getLast?_pad (t : List Nat) (k : Nat) :
    ((t ++ [0]) ++ List.replicate k 0).getLast? = some 0 := by
  cases k with
  | zero => simp [List.getLast?_concat]
  | succ n =>
    rw [List.replicate_succ', ← List.append_assoc]
    exact List.getLast?_concat _

/-- C10: the encoded 128-byte path field and the encoded 16-byte name
field always contain a null byte and always end in one, for every input
string, so every stored path and name is null-terminated inside its
field. -/
theorem c10_fields_null_terminated (s : String) :
    (pathField s).length = 128 ∧ (pathField s).getLast? = some 0 ∧
    (0 : Nat) ∈ pathField s ∧
    (nameField s).length = 16 ∧ (nameField s).getLast? = some 0 ∧
    (0 : Nat) ∈ nameField s := by
  refine ⟨length_pathField s, ?_, ?_, length_nameField s, ?_, ?_⟩
  · exact getLast?_pad _ _
  · simp [pathField]
  · exact getLast?_pad _ _
  · simp [nameField]

/-- C4: for input at least as long as the threshold, a raw deflate body
that does not shrink the input is discarded and the input is stored with
size field 0; a size field of 0 always accompanies the original data;
and a nonzero size field always equals the length of the stored bytes,
which is strictly below the original length.  The hypothesis hnz records
the zlib fact that a raw deflate stream is never empty. -/
theorem c4_compression_never_wasteful (zlibCompress : List Nat → List Nat)
    (data : List Nat) (h : COMPRESS_THRESHOLD ≤ data.length)
    (hnz : pySlice2m4 (zlibCompress data) ≠ []) :
    (data.length ≤ (pySlice2m4 (zlibCompress data)).length →
      compress_file zlibCompress data = (data, 0)) ∧
    ((compress_file zlibCompress data).2 = 0 →
      (compress_file zlibCompress data).1 = data) ∧
    ((compress_file zlibCompress data).2 ≠ 0 →
      (compress_file zlibCompress data).2 =
        (compress_file zlibCompress data).1.length ∧
      (compress_file zlibCompress data).1.length < data.length) := by
  have h1 : ¬ data.length < COMPRESS_THRESHOLD := by omega
  by_cases h2 : data.length ≤ (pySlice2m4 (zlibCompress data)).length
  · rw [compress_file, if_neg h1, if_pos h2]
    exact ⟨fun _ => rfl, fun _ => rfl, fun hh => absurd rfl hh⟩
  · rw [compress_file, if_neg h1, if_neg h2]
    dsimp only
    refine ⟨fun hc => absurd hc h2, ?_, fun _ => ⟨rfl, by omega⟩⟩
    intro h0
    exact absurd (List.length_eq_zero.mp h0) hnz

/-- C5: whenever compress_file returns a nonzero size field, inflating
the stored bytes with a raw inflate that inverts the raw deflate body
recovers the original data exactly, and the stored bytes are strictly
shorter than the original.  The hypothesis hinv is the inverse contract
of the external zlib pair. -/
theorem c5_compressed_roundtrip (zlibCompress inflateRaw : List Nat → List Nat)
    (data : List Nat)
    (hinv : inflateRaw (pySlice2m4 (zlibCompress data)) = data)
    (hsz : (compress_file zlibCompress data).2 ≠ 0) :
    inflateRaw (compress_file zlibCompress data).1 = data ∧
    (compress_file zlibCompress data).1.length < data.length := by
  by_cases h1 : data.length < COMPRESS_THRESHOLD
  · rw [compress_file, if_pos h1] at hsz
    exact absurd rfl hsz
  · by_cases h2 : data.length ≤ (pySlice2m4 (zlibCompress data)).length
    · rw [compress_file, if_neg h1, if_pos h2] at hsz
      exact absurd rfl hsz
    · rw [compress_file, if_neg h1, if_neg h2] at hsz ⊢
      dsimp only
      exact ⟨hinv, by omega⟩

/-- Length of the threshold witness file. -/
theorem length_file4096 : file4096.length = 4096 := by
  simp only [file4096, List.length_replicate]

/-- Strip of the stand-in zlib output on the threshold witness file. -/
theorem pySlice_zcSmall :
    pySlice2m4 (zcSmall file4096) = List.replicate 100 7 := by decide

/-- Evaluation of compress_file on the threshold witness file. -/
theorem compress_file_zcSmall :
    compress_file zcSmall file4096 = (List.replicate 100 7, 100) := by
  rw [compress_file, pySlice_zcSmall, length_file4096]
  norm_num [COMPRESS_THRESHOLD]

/-- Witness for c4_compression_never_wasteful at a 4096-byte file and a
stand-in zlib with a 100-byte raw body. -/
theorem c4_compression_never_wasteful_witness :
    (COMPRESS_THRESHOLD ≤ file4096.length ∧
      pySlice2m4 (zcSmall file4096) ≠ []) ∧
    ((file4096.length ≤ (pySlice2m4 (zcSmall file4096)).length →
      compress_file zcSmall file4096 = (file4096, 0)) ∧
    ((compress_file zcSmall file4096).2 = 0 →
      (compress_file zcSmall file4096).1 = file4096) ∧
    ((compress_file zcSmall file4096).2 ≠ 0 →
      (compress_file zcSmall file4096).2 =
        (compress_file zcSmall file4096).1.length ∧
      (compress_file zcSmall file4096).1.length < file4096.length)) :=
  ⟨⟨by simp [COMPRESS_THRESHOLD, length_file4096],
    by rw [pySlice_zcSmall]; decide⟩,
   c4_compression_never_wasteful zcSmall file4096
     (by simp [COMPRESS_THRESHOLD, length_file4096])
     (by rw [pySlice_zcSmall]; decide)⟩

/-- Witness for c5_compressed_roundtrip at the same concrete input. -/
theorem c5_compressed_roundtrip_witness :
    (inflateSmall (pySlice2m4 (zcSmall file4096)) = file4096 ∧
      (compress_file zcSmall file4096).2 ≠ 0) ∧
    (inflateSmall (compress_file zcSmall file4096).1 = file4096 ∧
      (compress_file zcSmall file4096).1.length < file4096.length) :=
  ⟨⟨rfl, by rw [compress_file_zcSmall]; simp⟩,
   c5_compressed_roundtrip zcSmall inflateSmall file4096 rfl
     (by rw [compress_file_zcSmall]; simp)⟩

/-- C9: an architecture with an empty file list yields an empty
manifest, empty data and file count zero from pack_arch, and main still
emits a table entry for it with file_count 0 and a zero length blob,
then finishes with exit code 0 instead of failing. -/
theorem c9_empty_arch_warning (zlibCompress : List Nat → List Nat)
    (name : String) :
    pack_arch zlibCompress [] = ([], [], 0) ∧
    packLoop zlibCompress [(name, [])] 32 = (archEntry name 32 0, [[]]) ∧
    mainRun zlibCompress [(name, [])] =
      (0, some ([83, 85, 82, 86, 1, 1, 0, 0] ++ archEntry name 32 0)) := by
  refine ⟨rfl, by simp [packLoop, pack_arch], ?_⟩
  have h32 : assemble zlibCompress [(name, [])] =
      [83, 85, 82, 86, 1, 1, 0, 0] ++ archEntry name 32 0 := by
    simp [assemble, packLoop, pack_arch]
  have hrun : mainRun zlibCompress [(name, [])] =
      if max_size < (assemble zlibCompress [(name, [])]).length
      then (1, some (assemble zlibCompress [(name, [])]))
      else (0, some (assemble zlibCompress [(name, [])])) := rfl
  rw [hrun, h32,
    if_neg (by simp [max_size, length_archEntry])]

/-- Unfolding of the pack_arch fold: the manifest accumulates the
per-file entries and the data section the per-file stored bytes. -/
theorem pack_arch_foldl (zlibCompress : List Nat → List Nat)
    (files : List (String × List Nat)) (m0 d0 : List Nat) :
    files.foldl
      (fun acc f =>
        let c := compress_file zlibCompress f.2
        (acc.1 ++ manifestEntry f.1 c.2 f.2.length, acc.2 ++ c.1))
      (m0, d0) =
    (m0 ++ (files.map (entryOf zlibCompress)).flatten,
     d0 ++ (files.map (storedOf zlibCompress)).flatten) := by
  induction files generalizing m0 d0 with
  | nil => simp
  | cons f rest ih =>
    simp only [List.foldl_cons, List.map_cons, List.flatten_cons]
    rw [ih]
    simp [entryOf, storedOf, List.append_assoc]

/-- Manifest, data and count of pack_arch as concatenations. -/
theorem pack_arch_eq (zlibCompress : List Nat → List Nat)
    (files : List (String × List Nat)) :
    pack_arch zlibCompress files =
      ((files.map (entryOf zlibCompress)).flatten,
       (files.map (storedOf zlibCompress)).flatten, files.length) := by
  cases files with
  | nil => rfl
  | cons f rest =>
    rw [pack_arch]
    simp only [List.isEmpty_cons, Bool.false_eq_true, if_false]
    rw [pack_arch_foldl]
    simp

/-- Element i of a concatenation of lists sits exactly after the summed
lengths of the preceding lists. -/
theorem flatten_segment {α : Type} (ls : List (List α)) :
    ∀ i, (hi : i < ls.length) →
      (ls.flatten.drop (((ls.take i).map List.length).sum)).take
          ls[i].length = ls[i] := by
  induction ls with
  | nil => intro i hi; exact absurd hi (by simp)
  | cons hd tl ih =>
    intro i hi
    cases i with
    | zero =>
      simp only [List.take_zero, List.map_nil, List.sum_nil, List.drop_zero,
        List.getElem_cons_zero, List.flatten_cons]
      exact List.take_left hd tl.flatten
    | succ n =>
      have hn : n < tl.length := by simpa using hi
      simp only [List.take_succ_cons, List.map_cons, List.sum_cons,
        List.flatten_cons, List.getElem_cons_succ]
      rw [List.drop_append]
      exact ih n hn

/-- Under the nonempty raw deflate hypothesis, the stored bytes of a
file occupy exactly its declared size. -/
theorem length_storedOf (zlibCompress : List Nat → List Nat)
    (f : String × List Nat)
    (hnz : COMPRESS_THRESHOLD ≤ f.2.length →
      pySlice2m4 (zlibCompress f.2) ≠ []) :
    (storedOf zlibCompress f).length = declaredSize zlibCompress f := by
  unfold storedOf declaredSize
  by_cases h1 : f.2.length < COMPRESS_THRESHOLD
  · rw [compress_file, if_pos h1]; simp
  · by_cases h2 : f.2.length ≤ (pySlice2m4 (zlibCompress f.2)).length
    · rw [compress_file, if_neg h1, if_pos h2]; simp
    · rw [compress_file, if_neg h1, if_neg h2]
      dsimp only
      have hne := hnz (by omega)
      have hpos : (pySlice2m4 (zlibCompress f.2)).length ≠ 0 := by
        simpa [List.length_eq_zero] using hne
      rw [if_neg hpos]

/-- C6: pack_arch keeps the manifest and data sections positionally
aligned.  The manifest is the concatenation, in collector order, of one
136-byte entry per file; the data section is the concatenation of the
same files stored bytes in the same order; and the bytes of file i start
exactly after the declared sizes of the files before it and span exactly
its declared size, the compressed size field when nonzero, else the
original size.  The hypothesis hnz records the zlib fact that a raw
deflate stream is never empty. -/
theorem c6_manifest_data_aligned (zlibCompress : List Nat → List Nat)
    (files : List (String × List Nat))
    (hnz : ∀ f ∈ files, COMPRESS_THRESHOLD ≤ f.2.length →
      pySlice2m4 (zlibCompress f.2) ≠ []) :
    (pack_arch zlibCompress files).1 =
      (files.map (entryOf zlibCompress)).flatten ∧
    (∀ f ∈ files, (entryOf zlibCompress f).length = 136) ∧
    (pack_arch zlibCompress files).2.1 =
      (files.map (storedOf zlibCompress)).flatten ∧
    (pack_arch zlibCompress files).2.2 = files.length ∧
    (∀ i, (hi : i < files.length) →
      (((pack_arch zlibCompress files).2.1.drop
          (((files.take i).map (declaredSize zlibCompress)).sum)).take
        (declaredSize zlibCompress files[i])) =
      storedOf zlibCompress files[i]) := by
  have hpack := pack_arch_eq zlibCompress files
  refine ⟨by rw [hpack], fun f _ => length_manifestEntry _ _ _, by rw [hpack],
    by rw [hpack], ?_⟩
  intro i hi
  rw [hpack]
  dsimp only
  have hmap : (files.take i).map (declaredSize zlibCompress) =
      ((files.map (storedOf zlibCompress)).take i).map List.length := by
    rw [← List.map_take, List.map_map]
    apply List.map_congr_left
    intro f hf
    exact (length_storedOf zlibCompress f (hnz f (List.mem_of_mem_take hf))).symm
  have hm : i < (files.map (storedOf zlibCompress)).length := by simpa using hi
  have hdecl : declaredSize zlibCompress files[i] =
      ((files.map (storedOf zlibCompress))[i]).length := by
    rw [List.getElem_map]
    exact (length_storedOf _ _ (hnz _ (List.getElem_mem hi))).symm
  rw [hmap, hdecl]
  rw [flatten_segment (files.map (storedOf zlibCompress)) i hm]
  rw [List.getElem_map]

/-- Witness for c6_manifest_data_aligned at a two-file architecture. -/
theorem c6_manifest_data_aligned_witness :
    (∀ f ∈ filesW, COMPRESS_THRESHOLD ≤ f.2.length →
      pySlice2m4 (zcId f.2) ≠ []) ∧
    ((pack_arch zcId filesW).1 = (filesW.map (entryOf zcId)).flatten ∧
     (∀ f ∈ filesW, (entryOf zcId f).length = 136) ∧
     (pack_arch zcId filesW).2.1 = (filesW.map (storedOf zcId)).flatten ∧
     (pack_arch zcId filesW).2.2 = filesW.length ∧
     (∀ i, (hi : i < filesW.length) →
       (((pack_arch zcId filesW).2.1.drop
           (((filesW.take i).map (declaredSize zcId)).sum)).take
         (declaredSize zcId filesW[i])) = storedOf zcId filesW[i])) :=
  ⟨by decide, c6_manifest_data_aligned zcId filesW (by decide)⟩

/-- Length of the table produced by packLoop: 24 bytes per entry. -/
theorem packLoop_table_length (zlibCompress : List Nat → List Nat)
    (arches : List (String × List (String × List Nat))) :
    ∀ off, (packLoop zlibCompress arches off).1.length = 24 * arches.length := by
  induction arches with
  | nil => intro off; simp [packLoop]
  | cons a rest ih =>
    intro off
    rw [packLoop]
    dsimp only
    rw [List.length_append, length_archEntry, ih, List.length_cons]
    ring

/-- Entry i of the packLoop table is the table entry of architecture i
with the running offset advanced by all preceding blobs. -/
theorem packLoop_table_get (zlibCompress : List Nat → List Nat) :
    ∀ (arches : List (String × List (String × List Nat))) (off i : Nat)
      (hi : i < arches.length),
      ((packLoop zlibCompress arches off).1.drop (24 * i)).take 24 =
        archEntry arches[i].1
          (off + (((arches.take i).map (blobOf zlibCompress)).map
            List.length).sum)
          (fileCountOf zlibCompress arches[i]) := by
  intro arches
  induction arches with
  | nil => intro off i hi; exact absurd hi (by simp)
  | cons a rest ih =>
    intro off i hi
    cases i with
    | zero =>
      simp only [Nat.mul_zero, List.drop_zero, List.take_zero, List.map_nil,
        List.sum_nil, Nat.add_zero, List.getElem_cons_zero]
      rw [packLoop]
      dsimp only
      rw [List.take_append_of_le_length (by rw [length_archEntry]),
        List.take_of_length_le (by rw [length_archEntry])]
      rfl
    | succ n =>
      have hn : n < rest.length := by simpa using hi
      rw [packLoop]
      dsimp only
      have h24 : 24 * (n + 1) =
          (archEntry a.1 off (pack_arch zlibCompress a.2).2.2).length + 24 * n := by
        rw [length_archEntry]; ring
      rw [h24, List.drop_append, ih _ n hn]
      simp only [List.take_succ_cons, List.map_cons, List.sum_cons,
        List.getElem_cons_succ, blobOf]
      congr 1
      omega

/-- C1: the 24-byte slice of the assembled payload holding table entry i
is exactly the entry of architecture i whose offset field carries the
cumulative byte count of everything preceding its blob: the 8-byte
header, the 24-byte-per-entry table, and the lengths of all preceding
blobs in input order.  At i equal to 0 the sum is empty and the offset
is 8 plus 24 times the architecture count. -/
theorem c1_arch_offsets_cumulative (zlibCompress : List Nat → List Nat)
    (arches : List (String × List (String × List Nat)))
    (hne : arches ≠ []) (i : Nat) (hi : i < arches.length) :
    ((assemble zlibCompress arches).drop (8 + 24 * i)).take 24 =
      archEntry arches[i].1
        (8 + 24 * arches.length +
          (((arches.take i).map (blobOf zlibCompress)).map List.length).sum)
        (fileCountOf zlibCompress arches[i]) := by
  have ha : assemble zlibCompress arches =
      [83, 85, 82, 86, 1, arches.length % 256, 0, 0] ++
        ((packLoop zlibCompress arches (8 + 24 * arches.length)).1 ++
          (packLoop zlibCompress arches (8 + 24 * arches.length)).2.flatten) := by
    rw [assemble, List.append_assoc]
    norm_num
  have h8 : 8 + 24 * i =
      ([83, 85, 82, 86, 1, arches.length % 256, 0, 0] : List Nat).length +
        24 * i := by simp
  rw [ha, h8, List.drop_append]
  have htl : 24 * i ≤
      (packLoop zlibCompress arches (8 + 24 * arches.length)).1.length := by
    rw [packLoop_table_length]; omega
  rw [List.drop_append_of_le_length htl]
  have htk : 24 ≤
      ((packLoop zlibCompress arches (8 + 24 * arches.length)).1.drop
        (24 * i)).length := by
    rw [List.length_drop, packLoop_table_length]; omega
  rw [List.take_append_of_le_length htk]
  exact packLoop_table_get zlibCompress arches (8 + 24 * arches.length) i hi

set_option maxRecDepth 8192 in
/-- Witness for c1_arch_offsets_cumulative: two architectures, the
second table entry carries offset 56 plus the 139-byte first blob. -/
theorem c1_arch_offsets_cumulative_witness :
    (archesW ≠ [] ∧ 1 < archesW.length) ∧
    ((assemble zcId archesW).drop (8 + 24 * 1)).take 24 =
      archEntry "x86_64" 195 0 := by
  refine ⟨⟨by decide, by decide⟩, ?_⟩
  have h := c1_arch_offsets_cumulative zcId archesW (by decide) 1 (by decide)
  exact h.trans (by decide)

/-- Oversize behavior of main: with at least one architecture, a payload
longer than max_size is still written in full and the exit code is 1. -/
theorem mainRun_oversize (zlibCompress : List Nat → List Nat)
    (arches : List (String × List (String × List Nat)))
    (hne : arches ≠ [])
    (hover : max_size < (assemble zlibCompress arches).length) :
    mainRun zlibCompress arches = (1, some (assemble zlibCompress arches)) := by
  obtain ⟨a, rest, rfl⟩ := List.exists_cons_of_ne_nil hne
  have h : mainRun zlibCompress (a :: rest) =
      if max_size < (assemble zlibCompress (a :: rest)).length
      then (1, some (assemble zlibCompress (a :: rest)))
      else (0, some (assemble zlibCompress (a :: rest))) := rfl
  rw [h, if_pos hover]

/-- Length of the bigFile witness. -/
theorem length_bigFile : bigFile.length = 2686976 := by
  simp only [bigFile, List.length_replicate]

/-- With zcPad the oversized file is incompressible and stored raw. -/
theorem compress_file_bigFile : compress_file zcPad bigFile = (bigFile, 0) := by
  have hc : (pySlice2m4 (zcPad bigFile)).length = 2686977 := by
    simp only [pySlice2m4, zcPad, List.length_take, List.length_drop,
      List.length_append, List.length_replicate, length_bigFile]
    omega
  rw [compress_file,
    if_neg (by rw [length_bigFile]; norm_num [COMPRESS_THRESHOLD]),
    if_pos (by rw [hc, length_bigFile]; norm_num)]

/-- Evaluation of pack_arch on a single-file architecture. -/
theorem pack_arch_single (zlibCompress : List Nat → List Nat) (p : String)
    (d : List Nat) :
    pack_arch zlibCompress [(p, d)] =
      (manifestEntry p (compress_file zlibCompress d).2 d.length,
       (compress_file zlibCompress d).1, 1) := by
  rw [pack_arch_eq]
  simp [entryOf, storedOf]

/-- Length of a one-architecture one-file payload: 8-byte header, one
24-byte table entry, one 136-byte manifest entry, and the stored
bytes. -/
theorem length_assemble_single (zlibCompress : List Nat → List Nat)
    (nm p : String) (d : List Nat) :
    (assemble zlibCompress [(nm, [(p, d)])]).length =
      168 + (compress_file zlibCompress d).1.length := by
  have ha : assemble zlibCompress [(nm, [(p, d)])] =
      [83, 85, 82, 86, 1, 1, 0, 0] ++
        ((packLoop zlibCompress [(nm, [(p, d)])] 32).1 ++
          (packLoop zlibCompress [(nm, [(p, d)])] 32).2.flatten) := by
    rw [assemble, List.append_assoc]
    norm_num
  rw [ha, packLoop]
  dsimp only
  rw [pack_arch_single, packLoop]
  dsimp only
  simp only [List.append_nil, List.flatten_cons, List.flatten_nil,
    List.length_append, length_archEntry, length_manifestEntry,
    List.length_cons, List.length_nil]
  omega

/-- Stored bytes of the oversized file are the file itself. -/
theorem stored_bigFile : (compress_file zcPad bigFile).1 = bigFile := by
  rw [compress_file_bigFile]

/-- Length of the oversized payload. -/
theorem length_assemble_big :
    (assemble zcPad bigArches).length = 2687144 := by
  show (assemble zcPad [("a", [("f", bigFile)])]).length = 2687144
  rw [length_assemble_single, stored_bigFile, length_bigFile]

/-- C8: when the assembled payload exceeds the partition capacity, the
payload is still written to the output in full before the check, and
main reports failure code 1 to its caller; the oversize condition never
truncates or suppresses the written bytes. -/
theorem c8_oversize_written_and_reported (zlibCompress : List Nat → List Nat)
    (arches : List (String × List (String × List Nat)))
    (hne : arches ≠ [])
    (hover : max_size < (assemble zlibCompress arches).length) :
    mainRun zlibCompress arches = (1, some (assemble zlibCompress arches)) :=
  mainRun_oversize zlibCompress arches hne hover

/-- Witness for c8_oversize_written_and_reported: one architecture with
an incompressible 2686976-byte file gives a 2687144-byte payload. -/
theorem c8_oversize_written_and_reported_witness :
    (bigArches ≠ [] ∧ max_size < (assemble zcPad bigArches).length) ∧
    mainRun zcPad bigArches = (1, some (assemble zcPad bigArches)) :=
  ⟨⟨by simp [bigArches], by simp [length_assemble_big, max_size]⟩,
   c8_oversize_written_and_reported zcPad bigArches (by simp [bigArches])
     (by simp [length_assemble_big, max_size])⟩

/-- C2 counterexample: at concrete inputs, the fatal missing
architectures condition and the oversize condition exit with the same
code 1, so the two failures are not signalled by distinct exit codes as
the claim states. -/
theorem c2_exit_codes_counterexample :
    (mainRun zcPad []).1 = 1 ∧ (mainRun zcPad bigArches).1 = 1 :=
  ⟨rfl, by
    rw [mainRun_oversize zcPad bigArches (by simp [bigArches])
      (by simp [length_assemble_big, max_size])]⟩

/-- C2 amended: both conditions report the same nonzero exit code 1 and
are therefore distinguishable from success but not from each other by
exit code alone; a caller can still tell them apart through the side
effect, since the fatal condition writes nothing while the oversize
condition writes the full payload. -/
theorem c2_exit_codes_amended (zlibCompress : List Nat → List Nat)
    (arches : List (String × List (String × List Nat)))
    (hne : arches ≠ [])
    (hover : max_size < (assemble zlibCompress arches).length) :
    (mainRun zlibCompress []).1 = 1 ∧ (mainRun zlibCompress []).2 = none ∧
    (mainRun zlibCompress arches).1 = 1 ∧
    (mainRun zlibCompress arches).2 = some (assemble zlibCompress arches) := by
  have h := mainRun_oversize zlibCompress arches hne hover
  exact ⟨rfl, rfl, by rw [h], by rw [h]⟩

/-- Witness for c2_exit_codes_amended at the oversized input. -/
theorem c2_exit_codes_amended_witness :
    (bigArches ≠ [] ∧ max_size < (assemble zcPad bigArches).length) ∧
    ((mainRun zcPad []).1 = 1 ∧ (mainRun zcPad []).2 = none ∧
     (mainRun zcPad bigArches).1 = 1 ∧
     (mainRun zcPad bigArches).2 = some (assemble zcPad bigArches)) :=
  ⟨⟨by simp [bigArches], by simp [length_assemble_big, max_size]⟩,
   c2_exit_codes_amended zcPad bigArches (by simp [bigArches])
     (by simp [length_assemble_big, max_size])⟩

set_option maxRecDepth 8192 in
/-- C3 refuted on the code: the byte cut at 127 splits the final
two-byte codepoint of c3path, leaving the stored path field invalid
UTF-8.  The first conjunct shows the encoding is 128 bytes, one over
the 127-byte budget; the second shows the kept bytes end in the bare
lead byte 195 of the cut codepoint; the third shows the field content
up to the null terminator fails the UTF-8 validity check. -/
theorem c3_truncation_splits_codepoint :
    (utf8Encode c3path).length = 128 ∧
    (pathField c3path).take 127 = List.replicate 126 97 ++ [195] ∧
    isValidUTF8 ((pathField c3path).takeWhile (fun b => b != 0)) = false := by
  refine ⟨?_, ?_, ?_⟩ <;> decide
